import Mathlib

/- ====================================================================
Shallow embedding of the MLB model-performance tracker
(model_performance_tracker.py, merge_espn_into_picks_log.py,
generate_picks_log_from_sportsdata.py, scrape_espn_scores.py).

Numbers: every betting quantity in this pipeline is an exact decimal
(spread lines of 1.5, total lines with at most two decimal places,
integer run counts).  Python compares them as IEEE doubles, and on this
value class double comparison agrees with exact decimal comparison, so
the embedding represents such a number as an integer numerator over a
power-of-ten denominator and compares by cross-multiplication.
==================================================================== -/

/-- An exact decimal number: the value is num / 10 ^ exp. -/
structure Dec where
  num : Int
  exp : Nat
deriving DecidableEq, Repr

/-- 10 ^ n as an integer, by structural recursion so that the kernel
can evaluate it. -/
def pow10 : Nat → Int
  | 0 => 1
  | n + 1 => 10 * pow10 n

/-- The rational value of an exact decimal. -/
def Dec.toRat (a : Dec) : ℚ := (a.num : ℚ) / ((pow10 a.exp : Int) : ℚ)

/-- Strict less-than on exact decimals, by cross-multiplication. -/
def Dec.blt (a b : Dec) : Bool := decide (a.num * pow10 b.exp < b.num * pow10 a.exp)

/-- An integer as an exact decimal. -/
def Dec.ofInt (n : Int) : Dec := ⟨n, 0⟩

/-- Exact subtraction (denominators multiplied, not reduced). -/
def Dec.sub (a b : Dec) : Dec :=
  ⟨a.num * pow10 b.exp - b.num * pow10 a.exp, a.exp + b.exp⟩

/-- Exact addition (denominators multiplied, not reduced). -/
def Dec.add (a b : Dec) : Dec :=
  ⟨a.num * pow10 b.exp + b.num * pow10 a.exp, a.exp + b.exp⟩

/-- Comparison x > y where x may be missing (a pandas NaN): every
comparison against NaN is false. -/
def optGt (x : Option Dec) (y : Dec) : Bool :=
  match x with
  | none => false
  | some a => Dec.blt y a

/-- Comparison x < y where x may be missing (a pandas NaN): every
comparison against NaN is false. -/
def optLt (x : Option Dec) (y : Dec) : Bool :=
  match x with
  | none => false
  | some a => Dec.blt a y

/-- Value of a nonempty digit string (most significant digit first). -/
def digitsToNat (cs : List Char) : Nat :=
  cs.foldl (fun n c => 10 * n + (c.toNat - 48)) 0

/-- Split a character list at every dot. -/
def splitDot (cs : List Char) : List (List Char) :=
  cs.foldr
    (fun c acc =>
      if c = '.' then [] :: acc
      else
        match acc with
        | t :: rest => (c :: t) :: rest
        | [] => [[c]])
    [[]]

/-- Python str.split() with no argument: split on spaces and drop the
empty pieces (the pick strings of this pipeline contain single spaces
only). -/
def splitSpace (cs : List Char) : List (List Char) :=
  (cs.foldr
    (fun c acc =>
      if c = ' ' then [] :: acc
      else
        match acc with
        | t :: rest => (c :: t) :: rest
        | [] => [[c]])
    [[]]).filter (fun t => !t.isEmpty)

/-- Python float() restricted to the plain unsigned decimal literals
this pipeline renders ("8", "8.5", "8.", ".5"): none models a raised
ValueError.  Exotic float() forms (exponents, inf, nan, underscores)
never occur in the pick strings. -/
def parseDecimal (cs : List Char) : Option Dec :=
  match splitDot cs with
  | [i] =>
    if i ≠ [] ∧ i.all Char.isDigit then some ⟨(digitsToNat i : Int), 0⟩ else none
  | [i, f] =>
    if (i ≠ [] ∨ f ≠ []) ∧ i.all Char.isDigit ∧ f.all Char.isDigit then
      some ⟨(digitsToNat i : Int) * pow10 f.length + (digitsToNat f : Int), f.length⟩
    else none
  | _ => none

/-- Python float() with an optional sign. -/
def parseFloat (cs : List Char) : Option Dec :=
  match cs with
  | '-' :: rest => (parseDecimal rest).map (fun d => ⟨-d.num, d.exp⟩)
  | '+' :: rest => parseDecimal rest
  | _ => parseDecimal cs

/- ====================================================================
src/merge_espn_into_picks_log.py
==================================================================== -/

/-- Lines 7-12: evaluate_spread_result(pick, actual_margin).  The
margin may be NaN after a failed left join, modelled as none.  Any
pick other than the two known strings falls through to "LOSS". -/
def evaluate_spread_result (pick : String) (actual_margin : Option Dec) : String :=
  if pick = "Home -1.5" then (if optGt actual_margin ⟨15, 1⟩ then "WIN" else "LOSS")
  else if pick = "Away +1.5" then (if optLt actual_margin ⟨-15, 1⟩ then "WIN" else "LOSS")
  else "LOSS"

/-- float(pick.split()[-1]): none when the indexing or the conversion
raises. -/
def lastTokenFloat (pick : String) : Option Dec :=
  ((splitSpace pick.toList).getLast?).bind parseFloat

/-- Lines 14-22: evaluate_total_result(pick, actual_total).  A raised
exception (empty split or unparseable number) returns "LOSS"; a
parseable line whose pick starts with neither Over nor Under falls off
the end of the Python function, modelled as none. -/
def evaluate_total_result (pick : String) (actual_total : Option Dec) : Option String :=
  match lastTokenFloat pick with
  | none => some "LOSS"
  | some target =>
    if List.isPrefixOf "Over".toList pick.toList then
      some (if optGt actual_total target then "WIN" else "LOSS")
    else if List.isPrefixOf "Under".toList pick.toList then
      some (if optLt actual_total target then "WIN" else "LOSS")
    else none

/-- One row of espn_scores.csv (the Total column is derived and dropped
again by the merge, so it is omitted). -/
structure EspnRow where
  date : Nat
  awayTeam : String
  homeTeam : String
  awayScore : Int
  homeScore : Int
deriving DecidableEq, Repr

/-- One picks_log.csv row as the merge script reads it. -/
structure PickRowCsv where
  date : Nat
  awayTeam : String
  homeTeam : String
  spreadPickText : String
  totalPickText : String
deriving DecidableEq, Repr

/-- Lines 32-37: the left join on (Date, Away Team, Home Team); none is
a join miss (the scraper emits at most one row per key, so the first
match is the match). -/
def espnMatch (espn : List EspnRow) (r : PickRowCsv) : Option EspnRow :=
  espn.find? (fun e => e.date == r.date && e.awayTeam == r.awayTeam && e.homeTeam == r.homeTeam)

/-- Lines 39-48 for one merged row: the recomputed actual margin,
actual total, spread result and total result.  On a join miss the
score columns are NaN and so are the actuals. -/
def mergeOutcome (espn : List EspnRow) (r : PickRowCsv) :
    Option Dec × Option Dec × String × Option String :=
  let m := espnMatch espn r
  let actualMargin : Option Dec := m.map (fun e => Dec.ofInt (e.homeScore - e.awayScore))
  let actualTotal : Option Dec := m.map (fun e => Dec.ofInt (e.homeScore + e.awayScore))
  (actualMargin, actualTotal,
   evaluate_spread_result r.spreadPickText actualMargin,
   evaluate_total_result r.totalPickText actualTotal)

/- ====================================================================
src/generate_picks_log_from_sportsdata.py
==================================================================== -/

/-- The structured counterpart of the two spread pick strings: home15
is "Home -1.5" and away15 is "Away +1.5" (the source tests these with
string equality and substring checks that each match exactly one
constructor). -/
inductive SpreadPick where
  | home15
  | away15
deriving DecidableEq, Repr

/-- The structured counterpart of the total pick strings "Over L" and
"Under L": the source renders the line into the string and recovers it
with float(pick.split()[i]), which round-trips for these decimals. -/
inductive TotalPick where
  | over (line : Dec)
  | under (line : Dec)
deriving DecidableEq, Repr

/-- Lines 36-39: simulate_model — a margin and a total derived from the
team-name lengths only. -/
def simulate_model (home away : String) : Int × Dec :=
  ((home.length : Int) - (away.length : Int),
   Dec.add ⟨85, 1⟩ (Dec.ofInt ((home.length + away.length) % 3 : Nat)))

/-- Lines 42-49: evaluate_spread(model_margin, vegas_spread,
actual_margin).  The result branch tests the pick just built, so the
match on the structured pick is the same case split as the source's
string comparisons. -/
def evaluate_spread (model_margin : Int) (vegas_spread : Dec) (actual_margin : Int) :
    SpreadPick × String :=
  let model_pick :=
    if Dec.blt vegas_spread (Dec.ofInt model_margin) then SpreadPick.home15
    else SpreadPick.away15
  let result :=
    match model_pick with
    | SpreadPick.home15 =>
      if Dec.blt ⟨15, 1⟩ (Dec.ofInt actual_margin) then "WIN" else "LOSS"
    | SpreadPick.away15 =>
      if Dec.blt (Dec.ofInt actual_margin) ⟨-15, 1⟩ then "WIN" else "LOSS"
  (model_pick, result)

/-- Lines 52-59: evaluate_total(model_total, vegas_total,
actual_total).  The startswith tests on the freshly rendered pick are
the match on its constructor. -/
def evaluate_total (model_total vegas_total : Dec) (actual_total : Int) :
    TotalPick × String :=
  let model_pick :=
    if Dec.blt vegas_total model_total then TotalPick.over vegas_total
    else TotalPick.under vegas_total
  let result :=
    match model_pick with
    | TotalPick.over _ =>
      if Dec.blt vegas_total (Dec.ofInt actual_total) then "WIN" else "LOSS"
    | TotalPick.under _ =>
      if Dec.blt (Dec.ofInt actual_total) vegas_total then "WIN" else "LOSS"
  (model_pick, result)

/- ====================================================================
src/model_performance_tracker.py
==================================================================== -/

/-- One game object of a statsapi schedule response: the team names and
the score fields, which are absent until the game is finished. -/
structure GameJson where
  home : String
  away : String
  homeScore : Option Int
  awayScore : Option Int
deriving DecidableEq, Repr

/-- The matchup as stored in the log.  The source serializes it as
f"away @ home" and recovers the home team by splitting on " @ ";
for team names not containing the separator this round-trips, so the
embedding keeps the pair. -/
structure Matchup where
  away : String
  home : String
deriving DecidableEq, Repr

/-- A final score as returned by fetch_final_score. -/
structure Score where
  home : Int
  away : Int
deriving DecidableEq, Repr

/-- One statsapi response: none models a failed request, bad JSON or an
empty dates array (whose indexing raises); all are caught by the
callers. -/
abbrev SchedResp := Option (List GameJson)

/-- A cell of the Actual Margin / Actual Total columns: missing (NaN in
a freshly concatenated row), the placeholder "-", or a number. -/
inductive Cell where
  | na
  | dash
  | val (n : Int)
deriving DecidableEq, Repr

/-- One picks_log row as the tracker holds it.  A result cell is none
while the column is missing (NaN) and holds the literal string
otherwise. -/
structure Row where
  date : Nat
  matchup : Matchup
  spreadPick : SpreadPick
  totalPick : TotalPick
  actualMargin : Cell
  spreadResult : Option String
  actualTotal : Cell
  totalResult : Option String
deriving DecidableEq, Repr

/-- Lines 23-39: fetch_final_score.  Scans the schedule response for
the first game involving the team; returns none when the request
failed, no game matches, or a score field is still absent. -/
def fetch_final_score (resp : SchedResp) (team_name : String) : Option Score :=
  match resp with
  | none => none
  | some games =>
    match games.find? (fun g => team_name == g.home || team_name == g.away) with
    | none => none
    | some g =>
      match g.homeScore, g.awayScore with
      | some h, some a => some ⟨h, a⟩
      | _, _ => none

/-- The pick built for one scheduled game (loop body of lines 83-96).
hash is Python's per-process salted string hash, passed explicitly;
Python % on a positive modulus is Int.emod; round(x, 2) is the
identity here because the margin is an integer and the total has
exactly two decimal places. -/
def mkPick (hash : String → Int) (game_date : Nat) (g : GameJson) : Row :=
  let margin : Int := Int.emod (hash g.home - hash g.away) 5 - 2
  let total : Dec := Dec.add (Dec.ofInt 8) (Dec.sub ⟨Int.emod (hash (g.home ++ g.away)) 300, 2⟩ ⟨15, 1⟩)
  { date := game_date
    matchup := ⟨g.away, g.home⟩
    spreadPick := if margin > 0 then SpreadPick.home15 else SpreadPick.away15
    totalPick := if Dec.blt (Dec.ofInt 8) total then TotalPick.over total else TotalPick.under total
    actualMargin := Cell.na
    spreadResult := none
    actualTotal := Cell.na
    totalResult := none }

/-- Lines 78-99: simulate_model_picks.  A failed request is caught and
yields no picks for the date. -/
def simulate_model_picks (hash : String → Int) (resp : SchedResp) (game_date : Nat) : List Row :=
  match resp with
  | none => []
  | some games => games.map (mkPick hash game_date)

/-- Lines 60-65: the spread branch of evaluate_row.  The line parsed
back out of the pick string is 1.5 for both pick forms. -/
def spreadRes (pick : SpreadPick) (actual_margin : Int) : String :=
  match pick with
  | SpreadPick.home15 =>
    if Dec.blt ⟨15, 1⟩ (Dec.ofInt actual_margin) then "WIN" else "LOSS"
  | SpreadPick.away15 =>
    if Dec.blt (Dec.ofInt actual_margin) ⟨-15, 1⟩ then "WIN" else "LOSS"

/-- Lines 67-72: the total branch of evaluate_row, with the line parsed
back out of the pick string. -/
def totalRes (pick : TotalPick) (actual_total : Int) : String :=
  match pick with
  | TotalPick.over line =>
    if Dec.blt line (Dec.ofInt actual_total) then "WIN" else "LOSS"
  | TotalPick.under line =>
    if Dec.blt (Dec.ofInt actual_total) line then "WIN" else "LOSS"

/-- Score responses for evaluate_row's per-row re-fetch: one response
per (date, home team) request; the source issues a separate HTTP
request for every row. -/
abbrev ScoreResp := Nat → String → SchedResp

/-- Lines 41-76: evaluate_row.  On a missing score the outcome columns
are (re)set to the pending placeholders; otherwise they are recomputed
from the score.  The interim PENDING assignment of lines 49-52 is
always overwritten in the second branch because every stored pick
matches exactly one spread and one total branch of the source. -/
def evaluate_row (scoreResp : ScoreResp) (row : Row) : Row :=
  match fetch_final_score (scoreResp row.date row.matchup.home) row.matchup.home with
  | none =>
    { row with actualMargin := Cell.dash, spreadResult := some "PENDING",
               actualTotal := Cell.dash, totalResult := some "PENDING" }
  | some sc =>
    { row with actualMargin := Cell.val (sc.home - sc.away),
               spreadResult := some (spreadRes row.spreadPick (sc.home - sc.away)),
               actualTotal := Cell.val (sc.home + sc.away),
               totalResult := some (totalRes row.totalPick (sc.home + sc.away)) }

/-- Lines 101-112: update_picks_log — append exactly the generated
picks whose matchup is not already logged for the date (when nothing
is new the source returns the log unchanged, which is the same
value). -/
def update_picks_log (hash : String → Int) (schedResp : Nat → SchedResp) (d : Nat)
    (log : List Row) : List Row :=
  let existing := (log.filter (fun r => r.date == d)).map (fun r => r.matchup)
  let new_picks := simulate_model_picks hash (schedResp d) d
  let new_entries := new_picks.filter (fun p => decide (p.matchup ∉ existing))
  log ++ new_entries

/-- Lines 122-130: the backfill-and-evaluate sweep over a date range:
one update_picks_log pass per date, then evaluate_row over every
row. -/
def sweep (hash : String → Int) (schedResp : Nat → SchedResp) (scoreResp : ScoreResp)
    (dates : List Nat) (log : List Row) : List Row :=
  (dates.foldl (fun st d => update_picks_log hash schedResp d st) log).map
    (evaluate_row scoreResp)

/-- The natural key of a logged row: (event date, home team, away
team). -/
def rowKey (r : Row) : Nat × String × String := (r.date, r.matchup.home, r.matchup.away)

/-- No two rows of the store share a natural key. -/
def NoDupKeys (log : List Row) : Prop := log.Pairwise (fun a b => rowKey a ≠ rowKey b)

/-- Some row with the given date and matchup is in the store. -/
def hasKey (log : List Row) (d : Nat) (m : Matchup) : Prop :=
  ∃ r ∈ log, r.date = d ∧ r.matchup = m

/- ====================================================================
Helper lemmas about the sweep
==================================================================== -/

/-- evaluate_row touches only the outcome columns: the date, matchup
and prediction fields survive. -/
theorem evaluate_row_preserves (s : ScoreResp) (r : Row) :
    (evaluate_row s r).date = r.date ∧ (evaluate_row s r).matchup = r.matchup ∧
    (evaluate_row s r).spreadPick = r.spreadPick ∧
    (evaluate_row s r).totalPick = r.totalPick := by
  unfold evaluate_row
  cases fetch_final_score (s r.date r.matchup.home) r.matchup.home <;> simp

/-- Re-evaluating a row against the same responses reproduces it. -/
theorem evaluate_row_idem (s : ScoreResp) (r : Row) :
    evaluate_row s (evaluate_row s r) = evaluate_row s r := by
  unfold evaluate_row
  cases h : fetch_final_score (s r.date r.matchup.home) r.matchup.home <;> simp [h]

/-- Every generated pick carries the date it was generated for. -/
theorem simulate_model_picks_date (hash : String → Int) (resp : SchedResp) (d : Nat)
    (p : Row) (hp : p ∈ simulate_model_picks hash resp d) : p.date = d := by
  cases resp with
  | none => simp [simulate_model_picks] at hp
  | some games =>
    simp only [simulate_model_picks, List.mem_map] at hp
    obtain ⟨g, _, rfl⟩ := hp
    rfl

/-- update_picks_log only appends rows. -/
theorem mem_update_picks_log (hash : String → Int) (sr : Nat → SchedResp) (d : Nat)
    (log : List Row) (r : Row) (hr : r ∈ log) : r ∈ update_picks_log hash sr d log := by
  unfold update_picks_log
  exact List.mem_append_left _ hr

/-- hasKey is monotone under update_picks_log. -/
theorem hasKey_update_picks_log (hash : String → Int) (sr : Nat → SchedResp) (d₀ d : Nat)
    (log : List Row) (m : Matchup) (h : hasKey log d m) :
    hasKey (update_picks_log hash sr d₀ log) d m := by
  obtain ⟨r, hr, hd, hm⟩ := h
  exact ⟨r, mem_update_picks_log hash sr d₀ log r hr, hd, hm⟩

/-- After updating date d, every pick generated for d has its key in
the store: either it was already logged or it was just appended. -/
theorem hasKey_update_covers (hash : String → Int) (sr : Nat → SchedResp) (d : Nat)
    (log : List Row) (p : Row) (hp : p ∈ simulate_model_picks hash (sr d) d) :
    hasKey (update_picks_log hash sr d log) d p.matchup := by
  by_cases hmem : p.matchup ∈ (log.filter (fun r => r.date == d)).map (fun r => r.matchup)
  · simp only [List.mem_map, List.mem_filter, beq_iff_eq] at hmem
    obtain ⟨r, ⟨hr, hd⟩, hm⟩ := hmem
    exact ⟨r, mem_update_picks_log hash sr d log r hr, hd, hm⟩
  · refine ⟨p, ?_, simulate_model_picks_date hash (sr d) d p hp, rfl⟩
    unfold update_picks_log
    refine List.mem_append_right _ ?_
    exact List.mem_filter.mpr ⟨hp, by simpa using hmem⟩

/-- If every pick generated for date d is already keyed in the store,
updating d changes nothing. -/
theorem update_picks_log_noop (hash : String → Int) (sr : Nat → SchedResp) (d : Nat)
    (log : List Row)
    (h : ∀ p ∈ simulate_model_picks hash (sr d) d, hasKey log d p.matchup) :
    update_picks_log hash sr d log = log := by
  have hnil : (simulate_model_picks hash (sr d) d).filter
      (fun p => decide (p.matchup ∉ (log.filter (fun r => r.date == d)).map (fun r => r.matchup))) = [] := by
    rw [List.filter_eq_nil_iff]
    intro p hp
    obtain ⟨r, hr, hd, hm⟩ := h p hp
    simp only [decide_eq_true_eq, not_not]
    exact List.mem_map.mpr ⟨r, List.mem_filter.mpr ⟨hr, by simpa using hd⟩, hm⟩
  simp only [update_picks_log]
  rw [hnil, List.append_nil]

/-- hasKey is monotone under a whole generation pass. -/
theorem hasKey_foldl_update (hash : String → Int) (sr : Nat → SchedResp) (dates : List Nat)
    (log : List Row) (d : Nat) (m : Matchup) (h : hasKey log d m) :
    hasKey (dates.foldl (fun st x => update_picks_log hash sr x st) log) d m := by
  induction dates generalizing log with
  | nil => exact h
  | cons d₁ rest ih =>
    exact ih (update_picks_log hash sr d₁ log) (hasKey_update_picks_log hash sr d₁ d log m h)

/-- After a generation pass over a date range, every pick generated for
a date of the range has its key in the store. -/
theorem hasKey_foldl_covers (hash : String → Int) (sr : Nat → SchedResp) (dates : List Nat)
    (log : List Row) (d : Nat) (hd : d ∈ dates) (p : Row)
    (hp : p ∈ simulate_model_picks hash (sr d) d) :
    hasKey (dates.foldl (fun st x => update_picks_log hash sr x st) log) d p.matchup := by
  induction dates generalizing log with
  | nil => cases hd
  | cons d₁ rest ih =>
    rcases List.mem_cons.mp hd with h₁ | h₂
    · subst h₁
      exact hasKey_foldl_update hash sr rest (update_picks_log hash sr d log) d p.matchup
        (hasKey_update_covers hash sr d log p hp)
    · exact ih (update_picks_log hash sr d₁ log) h₂

/-- A generation pass over a range whose picks are all already keyed in
the store changes nothing. -/
theorem foldl_update_noop (hash : String → Int) (sr : Nat → SchedResp) (dates : List Nat)
    (log : List Row)
    (h : ∀ d ∈ dates, ∀ p ∈ simulate_model_picks hash (sr d) d, hasKey log d p.matchup) :
    dates.foldl (fun st x => update_picks_log hash sr x st) log = log := by
  induction dates with
  | nil => rfl
  | cons d₁ rest ih =>
    have h₁ : update_picks_log hash sr d₁ log = log :=
      update_picks_log_noop hash sr d₁ log (h d₁ (List.mem_cons_self d₁ rest))
    simp only [List.foldl_cons, h₁]
    exact ih (fun d hd p hp => h d (List.mem_cons_of_mem d₁ hd) p hp)

/-- Keys survive the evaluation pass. -/
theorem hasKey_map_evaluate_row (s : ScoreResp) (log : List Row) (d : Nat) (m : Matchup)
    (h : hasKey log d m) : hasKey (log.map (evaluate_row s)) d m := by
  obtain ⟨r, hr, hd, hm⟩ := h
  obtain ⟨hd2, hm2, -, -⟩ := evaluate_row_preserves s r
  exact ⟨evaluate_row s r, List.mem_map.mpr ⟨r, hr, rfl⟩, hd2.trans hd, hm2.trans hm⟩

/-- Running the sweep a second time with the same hash function and the
same external responses reproduces the store exactly. -/
theorem sweep_sweep_helper (hash : String → Int) (sr : Nat → SchedResp) (scr : ScoreResp)
    (dates : List Nat) (log : List Row) :
    sweep hash sr scr dates (sweep hash sr scr dates log) = sweep hash sr scr dates log := by
  unfold sweep
  set gen := dates.foldl (fun st d => update_picks_log hash sr d st) log with hgen
  have hcov : ∀ d ∈ dates, ∀ p ∈ simulate_model_picks hash (sr d) d,
      hasKey (gen.map (evaluate_row scr)) d p.matchup := by
    intro d hd p hp
    exact hasKey_map_evaluate_row scr gen d p.matchup
      (hasKey_foldl_covers hash sr dates log d hd p hp)
  rw [foldl_update_noop hash sr dates (gen.map (evaluate_row scr)) hcov]
  rw [List.map_map]
  exact List.map_congr_left (fun r _ => evaluate_row_idem scr r)

/-- pow10 is positive. -/
theorem pow10_pos (n : Nat) : (0 : Int) < pow10 n := by
  induction n with
  | zero => decide
  | succ k ih => unfold pow10; omega

/-- Dec.blt decides the strict order of the rational values. -/
theorem Dec.blt_iff (a b : Dec) : (Dec.blt a b = true) ↔ a.toRat < b.toRat := by
  have ha : (0 : ℚ) < ((pow10 a.exp : Int) : ℚ) := by exact_mod_cast pow10_pos a.exp
  have hb : (0 : ℚ) < ((pow10 b.exp : Int) : ℚ) := by exact_mod_cast pow10_pos b.exp
  unfold Dec.blt Dec.toRat
  rw [decide_eq_true_eq, div_lt_div_iff₀ ha hb]
  constructor
  · intro h; exact_mod_cast h
  · intro h; exact_mod_cast h

/-- Dec.blt is false exactly when the opposite non-strict order holds. -/
theorem Dec.blt_eq_false_iff (a b : Dec) : (Dec.blt a b = false) ↔ b.toRat ≤ a.toRat := by
  rw [← not_lt, ← Dec.blt_iff a b, Bool.not_eq_true]

/-- The rational value of an embedded integer. -/
theorem Dec.toRat_ofInt (n : Int) : (Dec.ofInt n).toRat = (n : ℚ) := by
  unfold Dec.ofInt Dec.toRat pow10
  norm_num

/-- optGt on a present value is the strict order of the values. -/
theorem optGt_some (m L : Dec) : optGt (some m) L = Dec.blt L m := rfl

/-- optLt on a present value is the strict order of the values. -/
theorem optLt_some (m L : Dec) : optLt (some m) L = Dec.blt m L := rfl

/-- The spread evaluator of the merge script on the home pick. -/
theorem evaluate_spread_result_home (m : Option Dec) :
    evaluate_spread_result "Home -1.5" m = (if optGt m ⟨15, 1⟩ then "WIN" else "LOSS") := by
  simp [evaluate_spread_result]

/-- The spread evaluator of the merge script on the away pick. -/
theorem evaluate_spread_result_away (m : Option Dec) :
    evaluate_spread_result "Away +1.5" m = (if optLt m ⟨-15, 1⟩ then "WIN" else "LOSS") := by
  simp [evaluate_spread_result]

/-- The merge spread evaluator only ever returns WIN or LOSS. -/
theorem evaluate_spread_result_cases (pick : String) (m : Option Dec) :
    evaluate_spread_result pick m = "WIN" ∨ evaluate_spread_result pick m = "LOSS" := by
  unfold evaluate_spread_result
  by_cases h1 : pick = "Home -1.5"
  · rw [if_pos h1]
    cases hg : optGt m ⟨15, 1⟩ <;> simp
  · rw [if_neg h1]
    by_cases h2 : pick = "Away +1.5"
    · rw [if_pos h2]
      cases hg : optLt m ⟨-15, 1⟩ <;> simp
    · rw [if_neg h2]; simp

/-- The merge total evaluator only ever returns LOSS, WIN, or no value. -/
theorem evaluate_total_result_cases (pick : String) (t : Option Dec) :
    evaluate_total_result pick t = some "LOSS" ∨ evaluate_total_result pick t = some "WIN"
      ∨ evaluate_total_result pick t = none := by
  unfold evaluate_total_result
  cases lastTokenFloat pick with
  | none => left; rfl
  | some target =>
    dsimp only
    by_cases h1 : List.isPrefixOf "Over".toList pick.toList = true
    · rw [if_pos h1]
      cases hg : optGt t target <;> simp
    · rw [if_neg h1]
      by_cases h2 : List.isPrefixOf "Under".toList pick.toList = true
      · rw [if_pos h2]
        cases hg : optLt t target <;> simp
      · rw [if_neg h2]; simp

/-- C2 counterexample: with the home side picked at line 1.5 and a final
margin of exactly 1.5, the merge evaluator returns LOSS, not PUSH, so
exact-line equality does not yield PUSH. -/
theorem push_boundary_returns_loss_cex :
    evaluate_spread_result "Home -1.5" (some ⟨15, 1⟩) = "LOSS" ∧ "LOSS" ≠ "PUSH" := by
  exact ⟨by decide, by decide⟩

/-- C2 (amended): at exact line equality every evaluator of the source
returns LOSS (the value 1.5 being the decimal ⟨15, 1⟩), and no
evaluator ever returns PUSH on any input. -/
theorem push_boundary_amended :
    (∀ m : Dec, m.toRat = Dec.toRat ⟨15, 1⟩ → evaluate_spread_result "Home -1.5" (some m) = "LOSS")
    ∧ (∀ m : Dec, m.toRat = Dec.toRat ⟨-15, 1⟩ → evaluate_spread_result "Away +1.5" (some m) = "LOSS")
    ∧ (∀ pick t L, lastTokenFloat pick = some L → t.toRat = L.toRat →
        (List.isPrefixOf "Over".toList pick.toList = true
          ∨ List.isPrefixOf "Under".toList pick.toList = true) →
        evaluate_total_result pick (some t) = some "LOSS")
    ∧ (∀ L : Dec, ∀ t : Int, (t : ℚ) = L.toRat →
        totalRes (TotalPick.over L) t = "LOSS" ∧ totalRes (TotalPick.under L) t = "LOSS")
    ∧ (∀ p : SpreadPick, ∀ m : Int, spreadRes p m ≠ "PUSH")
    ∧ (∀ p : TotalPick, ∀ t : Int, totalRes p t ≠ "PUSH")
    ∧ (∀ pick m, evaluate_spread_result pick m ≠ "PUSH")
    ∧ (∀ pick t, evaluate_total_result pick t ≠ some "PUSH") := by
  refine ⟨?_, ?_, ?_, ?_, ?_, ?_, ?_, ?_⟩
  · intro m hm
    rw [evaluate_spread_result_home, optGt_some]
    have h : Dec.blt ⟨15, 1⟩ m = false := (Dec.blt_eq_false_iff _ _).mpr (le_of_eq hm)
    rw [h]
    decide
  · intro m hm
    rw [evaluate_spread_result_away, optLt_some]
    have h : Dec.blt m ⟨-15, 1⟩ = false := (Dec.blt_eq_false_iff _ _).mpr (ge_of_eq hm)
    rw [h]
    decide
  · intro pick t L hL ht hdir
    unfold evaluate_total_result
    rw [hL]
    dsimp only
    have hgt : optGt (some t) L = false := by
      rw [optGt_some]
      exact (Dec.blt_eq_false_iff _ _).mpr (le_of_eq ht)
    have hlt : optLt (some t) L = false := by
      rw [optLt_some]
      exact (Dec.blt_eq_false_iff _ _).mpr (ge_of_eq ht)
    rcases hdir with h | h
    · rw [if_pos h, hgt]
      decide
    · by_cases hover : List.isPrefixOf "Over".toList pick.toList = true
      · rw [if_pos hover, hgt]
        decide
      · rw [if_neg hover, if_pos h, hlt]
        decide
  · intro L t ht
    constructor
    · have h : Dec.blt L (Dec.ofInt t) = false := by
        refine (Dec.blt_eq_false_iff _ _).mpr ?_
        rw [Dec.toRat_ofInt, ht]
      simp [totalRes, h]
    · have h : Dec.blt (Dec.ofInt t) L = false := by
        refine (Dec.blt_eq_false_iff _ _).mpr ?_
        rw [Dec.toRat_ofInt, ht]
      simp [totalRes, h]
  · intro p m
    cases p <;> simp only [spreadRes] <;> split <;> decide
  · intro p t
    cases p <;> simp only [totalRes] <;> split <;> decide
  · intro pick m
    rcases evaluate_spread_result_cases pick m with h | h <;> rw [h] <;> decide
  · intro pick t
    rcases evaluate_total_result_cases pick t with h | h | h <;> rw [h] <;> decide

/-- Witness for the amended C2 theorem at concrete inputs: a home pick
with margin exactly 1.5, an Over 8.5 pick with total exactly 8.5, and a
tracker Over 9 pick with total 9. -/
theorem push_boundary_amended_witness :
    evaluate_spread_result "Home -1.5" (some ⟨15, 1⟩) = "LOSS"
    ∧ evaluate_total_result "Over 8.5" (some ⟨85, 1⟩) = some "LOSS"
    ∧ totalRes (TotalPick.over ⟨9, 0⟩) 9 = "LOSS" := by
  refine ⟨push_boundary_amended.1 ⟨15, 1⟩ rfl, ?_, ?_⟩
  · exact push_boundary_amended.2.2.1 "Over 8.5" ⟨85, 1⟩ ⟨85, 1⟩ (by decide) rfl (Or.inl (by decide))
  · exact (push_boundary_amended.2.2.2.1 ⟨9, 0⟩ 9 (by simp [Dec.toRat, pow10])).1


/-- C5 counterexample: the claim says LOSS occurs exactly when the
margin is strictly below the line, but at a margin exactly equal to the
line 1.5 the evaluator already returns LOSS. -/
theorem win_loss_boundary_cex :
    evaluate_spread_result "Home -1.5" (some ⟨15, 1⟩) = "LOSS"
    ∧ ¬ Dec.toRat ⟨15, 1⟩ < Dec.toRat ⟨15, 1⟩ := by
  exact ⟨by decide, lt_irrefl _⟩

/-- WIN and LOSS characterizations of a two-valued branch. -/
theorem win_loss_of_bool (c : Bool) (p : Prop) (hp : c = true ↔ p) :
    (((if c = true then "WIN" else "LOSS") = "WIN" ↔ p)
      ∧ ((if c = true then "WIN" else "LOSS") = "LOSS" ↔ ¬ p)) := by
  cases c with
  | false =>
    have hnp : ¬ p := fun hq => absurd (hp.mpr hq) (by decide)
    simp [hnp]
  | true =>
    have hq : p := hp.mp rfl
    simp [hq]

/-- C5 (amended): WIN holds exactly on the strict favourable side of
the line, and LOSS exactly on the complement — the non-strict
unfavourable side, equality included; ⟨15, 1⟩ denotes the literal
1.5. -/
theorem win_loss_characterization :
    (∀ m : Dec,
      (evaluate_spread_result "Home -1.5" (some m) = "WIN" ↔ Dec.toRat ⟨15, 1⟩ < m.toRat)
      ∧ (evaluate_spread_result "Home -1.5" (some m) = "LOSS" ↔ m.toRat ≤ Dec.toRat ⟨15, 1⟩))
    ∧ (∀ m : Dec,
      (evaluate_spread_result "Away +1.5" (some m) = "WIN" ↔ m.toRat < Dec.toRat ⟨-15, 1⟩)
      ∧ (evaluate_spread_result "Away +1.5" (some m) = "LOSS" ↔ Dec.toRat ⟨-15, 1⟩ ≤ m.toRat))
    ∧ (∀ pick L t, lastTokenFloat pick = some L →
      List.isPrefixOf "Over".toList pick.toList = true →
      ((evaluate_total_result pick (some t) = some "WIN" ↔ L.toRat < t.toRat)
        ∧ (evaluate_total_result pick (some t) = some "LOSS" ↔ t.toRat ≤ L.toRat)))
    ∧ (∀ pick L t, lastTokenFloat pick = some L →
      ¬ List.isPrefixOf "Over".toList pick.toList = true →
      List.isPrefixOf "Under".toList pick.toList = true →
      ((evaluate_total_result pick (some t) = some "WIN" ↔ t.toRat < L.toRat)
        ∧ (evaluate_total_result pick (some t) = some "LOSS" ↔ L.toRat ≤ t.toRat)))
    ∧ (∀ mm : Int, ∀ vs : Dec, ∀ am : Int, (evaluate_spread mm vs am).1 = SpreadPick.home15 →
      (((evaluate_spread mm vs am).2 = "WIN" ↔ Dec.toRat ⟨15, 1⟩ < (am : ℚ))
        ∧ ((evaluate_spread mm vs am).2 = "LOSS" ↔ (am : ℚ) ≤ Dec.toRat ⟨15, 1⟩)))
    ∧ (∀ mm : Int, ∀ vs : Dec, ∀ am : Int, (evaluate_spread mm vs am).1 = SpreadPick.away15 →
      (((evaluate_spread mm vs am).2 = "WIN" ↔ (am : ℚ) < Dec.toRat ⟨-15, 1⟩)
        ∧ ((evaluate_spread mm vs am).2 = "LOSS" ↔ Dec.toRat ⟨-15, 1⟩ ≤ (am : ℚ))))
    ∧ (∀ mt vt : Dec, ∀ t : Int, (evaluate_total mt vt t).1 = TotalPick.over vt →
      (((evaluate_total mt vt t).2 = "WIN" ↔ vt.toRat < (t : ℚ))
        ∧ ((evaluate_total mt vt t).2 = "LOSS" ↔ (t : ℚ) ≤ vt.toRat)))
    ∧ (∀ mt vt : Dec, ∀ t : Int, (evaluate_total mt vt t).1 = TotalPick.under vt →
      (((evaluate_total mt vt t).2 = "WIN" ↔ (t : ℚ) < vt.toRat)
        ∧ ((evaluate_total mt vt t).2 = "LOSS" ↔ vt.toRat ≤ (t : ℚ)))) := by
  refine ⟨?_, ?_, ?_, ?_, ?_, ?_, ?_, ?_⟩
  · intro m
    rw [evaluate_spread_result_home, optGt_some]
    have h := win_loss_of_bool _ _ (Dec.blt_iff ⟨15, 1⟩ m)
    rw [not_lt] at h
    exact h
  · intro m
    rw [evaluate_spread_result_away, optLt_some]
    have h := win_loss_of_bool _ _ (Dec.blt_iff m ⟨-15, 1⟩)
    rw [not_lt] at h
    exact h
  · intro pick L t hL hover
    unfold evaluate_total_result
    rw [hL]
    dsimp only
    rw [if_pos hover, optGt_some]
    have h := win_loss_of_bool _ _ (Dec.blt_iff L t)
    rw [not_lt] at h
    constructor
    · rw [← h.1]
      exact ⟨fun hx => Option.some_injective _ hx, fun hx => by rw [hx]⟩
    · rw [← h.2]
      exact ⟨fun hx => Option.some_injective _ hx, fun hx => by rw [hx]⟩
  · intro pick L t hL hover hunder
    unfold evaluate_total_result
    rw [hL]
    dsimp only
    rw [if_neg hover, if_pos hunder, optLt_some]
    have h := win_loss_of_bool _ _ (Dec.blt_iff t L)
    rw [not_lt] at h
    constructor
    · rw [← h.1]
      exact ⟨fun hx => Option.some_injective _ hx, fun hx => by rw [hx]⟩
    · rw [← h.2]
      exact ⟨fun hx => Option.some_injective _ hx, fun hx => by rw [hx]⟩
  · intro mm vs am hpick
    simp only [evaluate_spread] at hpick ⊢
    cases hcmp : Dec.blt vs (Dec.ofInt mm) with
    | false =>
      rw [hcmp] at hpick
      simp at hpick
    | true =>
      have h := win_loss_of_bool (Dec.blt ⟨15, 1⟩ (Dec.ofInt am))
        (Dec.toRat ⟨15, 1⟩ < (am : ℚ)) (by rw [Dec.blt_iff, Dec.toRat_ofInt])
      rw [not_lt] at h
      simpa using h
  · intro mm vs am hpick
    simp only [evaluate_spread] at hpick ⊢
    cases hcmp : Dec.blt vs (Dec.ofInt mm) with
    | true =>
      rw [hcmp] at hpick
      simp at hpick
    | false =>
      have h := win_loss_of_bool (Dec.blt (Dec.ofInt am) ⟨-15, 1⟩)
        ((am : ℚ) < Dec.toRat ⟨-15, 1⟩) (by rw [Dec.blt_iff, Dec.toRat_ofInt])
      rw [not_lt] at h
      simpa using h
  · intro mt vt t hpick
    simp only [evaluate_total] at hpick ⊢
    cases hcmp : Dec.blt vt mt with
    | false =>
      rw [hcmp] at hpick
      simp at hpick
    | true =>
      have h := win_loss_of_bool (Dec.blt vt (Dec.ofInt t))
        (vt.toRat < (t : ℚ)) (by rw [Dec.blt_iff, Dec.toRat_ofInt])
      rw [not_lt] at h
      simpa using h
  · intro mt vt t hpick
    simp only [evaluate_total] at hpick ⊢
    cases hcmp : Dec.blt vt mt with
    | true =>
      rw [hcmp] at hpick
      simp at hpick
    | false =>
      have h := win_loss_of_bool (Dec.blt (Dec.ofInt t) vt)
        ((t : ℚ) < vt.toRat) (by rw [Dec.blt_iff, Dec.toRat_ofInt])
      rw [not_lt] at h
      simpa using h

/-- Witness for the amended C5 theorem: a winning home cover at margin
3, and an Over 8.5 pick with total 9 classified WIN. -/
theorem win_loss_characterization_witness :
    evaluate_spread_result "Home -1.5" (some ⟨3, 0⟩) = "WIN"
    ∧ evaluate_total_result "Over 8.5" (some ⟨9, 0⟩) = some "WIN" := by
  constructor
  · exact ((win_loss_characterization.1 ⟨3, 0⟩).1).mpr
      ((Dec.blt_iff ⟨15, 1⟩ ⟨3, 0⟩).mp (by decide))
  · exact ((win_loss_characterization.2.2.1 "Over 8.5" ⟨85, 1⟩ ⟨9, 0⟩ (by decide) (by decide)).1).mpr
      ((Dec.blt_iff ⟨85, 1⟩ ⟨9, 0⟩).mp (by decide))

/-- C6 counterexample: a prediction string that decomposes into no
side/direction and no numeric line is classified LOSS by both merge
evaluators, not surfaced as an unresolved state. -/
theorem malformed_prediction_cex :
    evaluate_spread_result "garbage" (some ⟨0, 0⟩) = "LOSS"
    ∧ evaluate_total_result "garbage" (some ⟨0, 0⟩) = some "LOSS"
    ∧ "LOSS" ≠ "PENDING" := by
  exact ⟨by decide, by decide, by decide⟩

/-- C6 (amended): a spread prediction other than the two known strings
resolves to LOSS; a total prediction whose last token is not a number
resolves to LOSS; a total prediction with a numeric line but an
unrecognized direction produces no result value at all. -/
theorem malformed_prediction_amended :
    (∀ pick m, pick ≠ "Home -1.5" → pick ≠ "Away +1.5" →
      evaluate_spread_result pick m = "LOSS")
    ∧ (∀ pick t, lastTokenFloat pick = none → evaluate_total_result pick t = some "LOSS")
    ∧ (∀ pick t L, lastTokenFloat pick = some L →
      ¬ List.isPrefixOf "Over".toList pick.toList = true →
      ¬ List.isPrefixOf "Under".toList pick.toList = true →
      evaluate_total_result pick t = none) := by
  refine ⟨?_, ?_, ?_⟩
  · intro pick m h1 h2
    unfold evaluate_spread_result
    rw [if_neg h1, if_neg h2]
  · intro pick t hparse
    unfold evaluate_total_result
    rw [hparse]
  · intro pick t L hparse hover hunder
    unfold evaluate_total_result
    rw [hparse]
    dsimp only
    rw [if_neg hover, if_neg hunder]

/-- Witness for the amended C6 theorem on concrete malformed picks. -/
theorem malformed_prediction_amended_witness :
    evaluate_spread_result "Home +3" (some ⟨2, 0⟩) = "LOSS"
    ∧ evaluate_total_result "Total -" (some ⟨2, 0⟩) = some "LOSS"
    ∧ evaluate_total_result "Total 8.5" (some ⟨2, 0⟩) = none := by
  refine ⟨?_, ?_, ?_⟩
  · exact malformed_prediction_amended.1 "Home +3" (some ⟨2, 0⟩) (by decide) (by decide)
  · exact malformed_prediction_amended.2.1 "Total -" (some ⟨2, 0⟩) (by decide)
  · exact malformed_prediction_amended.2.2 "Total 8.5" (some ⟨2, 0⟩) ⟨85, 1⟩
      (by decide) (by decide) (by decide)

/-- C10: every pick row whose key finds no ESPN row in the left join is
written out with Spread Result LOSS and, provided its total pick reads
Over or Under, Total Result LOSS — the NaN actuals compare false
against every line, so the evaluators fall through to LOSS instead of
leaving the row pending. -/
theorem join_miss_marks_loss (espn : List EspnRow) (r : PickRowCsv)
    (hmiss : espnMatch espn r = none)
    (hdir : List.isPrefixOf "Over".toList r.totalPickText.toList = true
      ∨ List.isPrefixOf "Under".toList r.totalPickText.toList = true) :
    (mergeOutcome espn r).1 = none
    ∧ (mergeOutcome espn r).2.1 = none
    ∧ (mergeOutcome espn r).2.2.1 = "LOSS"
    ∧ (mergeOutcome espn r).2.2.2 = some "LOSS" := by
  unfold mergeOutcome
  rw [hmiss]
  dsimp only [Option.map_none]
  refine ⟨rfl, rfl, ?_, ?_⟩
  · unfold evaluate_spread_result
    by_cases h1 : r.spreadPickText = "Home -1.5"
    · rw [if_pos h1]
      rfl
    · rw [if_neg h1]
      by_cases h2 : r.spreadPickText = "Away +1.5"
      · rw [if_pos h2]
        rfl
      · rw [if_neg h2]
  · unfold evaluate_total_result
    cases hparse : lastTokenFloat r.totalPickText with
    | none => rfl
    | some target =>
      dsimp only
      rcases hdir with h | h
      · rw [if_pos h]
        rfl
      · by_cases hover : List.isPrefixOf "Over".toList r.totalPickText.toList = true
        · rw [if_pos hover]
          rfl
        · rw [if_neg hover, if_pos h]
          rfl

/-- Witness for C10: a pick row dated against an empty ESPN file. -/
theorem join_miss_marks_loss_witness :
    (mergeOutcome [] ⟨0, "Athletics", "Yankees", "Home -1.5", "Over 8.5"⟩).2.2.1 = "LOSS"
    ∧ (mergeOutcome [] ⟨0, "Athletics", "Yankees", "Home -1.5", "Over 8.5"⟩).2.2.2 = some "LOSS" := by
  have h := join_miss_marks_loss [] ⟨0, "Athletics", "Yankees", "Home -1.5", "Over 8.5"⟩
    (by decide) (Or.inl (by decide))
  exact ⟨h.2.2.1, h.2.2.2⟩

/-- C8: when the score fetch yields no final score — request failure,
game not found, or score fields still absent — evaluate_row sets the
outcome columns to the pending placeholders and never WIN, LOSS or
PUSH; a pick already in the pending state comes back entirely
unchanged, so the absence of a score is not treated as an error. -/
theorem no_score_leaves_pending :
    (∀ (scoreResp : ScoreResp) (row : Row),
      fetch_final_score (scoreResp row.date row.matchup.home) row.matchup.home = none →
      (evaluate_row scoreResp row).actualMargin = Cell.dash
      ∧ (evaluate_row scoreResp row).spreadResult = some "PENDING"
      ∧ (evaluate_row scoreResp row).actualTotal = Cell.dash
      ∧ (evaluate_row scoreResp row).totalResult = some "PENDING")
    ∧ (∀ (scoreResp : ScoreResp) (row : Row),
      fetch_final_score (scoreResp row.date row.matchup.home) row.matchup.home = none →
      row.actualMargin = Cell.dash → row.spreadResult = some "PENDING" →
      row.actualTotal = Cell.dash → row.totalResult = some "PENDING" →
      evaluate_row scoreResp row = row) := by
  constructor
  · intro scoreResp row h
    unfold evaluate_row
    rw [h]
    exact ⟨rfl, rfl, rfl, rfl⟩
  · intro scoreResp row h h1 h2 h3 h4
    unfold evaluate_row
    rw [h]
    cases row
    simp only at h1 h2 h3 h4
    simp [h1, h2, h3, h4]

/-- Witness for C8: a concrete pending row against a score source that
returns nothing. -/
theorem no_score_leaves_pending_witness :
    (evaluate_row (fun _ _ => none)
        ⟨0, ⟨"Athletics", "Yankees"⟩, SpreadPick.home15, TotalPick.over ⟨85, 1⟩,
         Cell.dash, some "PENDING", Cell.dash, some "PENDING"⟩)
      = ⟨0, ⟨"Athletics", "Yankees"⟩, SpreadPick.home15, TotalPick.over ⟨85, 1⟩,
         Cell.dash, some "PENDING", Cell.dash, some "PENDING"⟩ := by
  exact no_score_leaves_pending.2 (fun _ _ => none)
    ⟨0, ⟨"Athletics", "Yankees"⟩, SpreadPick.home15, TotalPick.over ⟨85, 1⟩,
     Cell.dash, some "PENDING", Cell.dash, some "PENDING"⟩ rfl rfl rfl rfl rfl

/-- C1: running the backfill-generate-then-evaluate sweep a second time
over the same date range, with the same schedule and score responses,
leaves the store exactly as after the first run — in particular the
second run appends no rows and rewrites every outcome field to the
same value. -/
theorem sweep_idempotent (hash : String → Int) (schedResp : Nat → SchedResp)
    (scoreResp : ScoreResp) (dates : List Nat) (log : List Row) :
    sweep hash schedResp scoreResp dates (sweep hash schedResp scoreResp dates log) =
      sweep hash schedResp scoreResp dates log :=
  sweep_sweep_helper hash schedResp scoreResp dates log

/-- C3 counterexample: a row already finalized as WIN is reset to
PENDING by a later sweep in which the score source no longer returns
the game, so finalized outcome fields are not left unchanged by
arbitrary subsequent sweeps. -/
theorem later_sweep_resets_finalized_row :
    sweep (fun _ => 0) (fun _ => none) (fun _ _ => none) [0]
        [⟨0, ⟨"Athletics", "Yankees"⟩, SpreadPick.home15, TotalPick.over ⟨9, 0⟩,
          Cell.val 3, some "WIN", Cell.val 10, some "WIN"⟩]
      = [⟨0, ⟨"Athletics", "Yankees"⟩, SpreadPick.home15, TotalPick.over ⟨9, 0⟩,
          Cell.dash, some "PENDING", Cell.dash, some "PENDING"⟩]
    ∧ some "WIN" ≠ some "PENDING" := by
  exact ⟨by decide, by decide⟩

/-- C3 (amended): a later sweep recomputes every outcome field from the
current score response, so finalized fields are preserved exactly when
the responses are unchanged: with the same external responses, any
number of repeated sweeps after the first changes nothing at all. -/
theorem repeated_sweep_stable (hash : String → Int) (schedResp : Nat → SchedResp)
    (scoreResp : ScoreResp) (dates : List Nat) (log : List Row) (n : Nat) :
    (sweep hash schedResp scoreResp dates)^[n + 1] log =
      sweep hash schedResp scoreResp dates log := by
  induction n with
  | zero => rw [Function.iterate_one]
  | succ k ih => rw [Function.iterate_succ_apply', ih, sweep_sweep_helper]

/-- Matchups with equal components are equal. -/
theorem matchup_eq_of_parts {m₁ m₂ : Matchup} (h1 : m₁.home = m₂.home)
    (h2 : m₁.away = m₂.away) : m₁ = m₂ := by
  cases m₁; cases m₂; simp_all

/-- Natural keys agree exactly when date and matchup agree. -/
theorem rowKey_eq_iff {a b : Row} :
    rowKey a = rowKey b ↔ a.date = b.date ∧ a.matchup = b.matchup := by
  unfold rowKey
  constructor
  · intro h
    have h1 := congrArg Prod.fst h
    have h2 := congrArg (fun x => x.2.1) h
    have h3 := congrArg (fun x => x.2.2) h
    exact ⟨h1, matchup_eq_of_parts h2 h3⟩
  · intro ⟨h1, h2⟩
    rw [h1, h2]

/-- The natural key survives evaluation. -/
theorem rowKey_evaluate_row (s : ScoreResp) (r : Row) :
    rowKey (evaluate_row s r) = rowKey r := by
  obtain ⟨hd, hm, -, -⟩ := evaluate_row_preserves s r
  unfold rowKey
  rw [hd, hm]

/-- One update pass preserves key uniqueness when the schedule response
for the date lists each matchup at most once. -/
theorem noDupKeys_update (hash : String → Int) (sr : Nat → SchedResp) (d : Nat)
    (log : List Row) (hlog : NoDupKeys log)
    (hpicks : (simulate_model_picks hash (sr d) d).Pairwise (fun a b => a.matchup ≠ b.matchup)) :
    NoDupKeys (update_picks_log hash sr d log) := by
  unfold NoDupKeys update_picks_log
  rw [List.pairwise_append]
  refine ⟨hlog, ?_, ?_⟩
  · have hk : (simulate_model_picks hash (sr d) d).Pairwise (fun a b => rowKey a ≠ rowKey b) :=
      hpicks.imp (fun hab hk => hab (rowKey_eq_iff.mp hk).2)
    exact hk.sublist (List.filter_sublist _)
  · intro a ha b hb hkey
    have hbp := List.mem_filter.mp hb
    have hbd : b.date = d := simulate_model_picks_date hash (sr d) d b hbp.1
    have hnotin : b.matchup ∉
        (log.filter (fun r => r.date == d)).map (fun r => r.matchup) := by
      have := hbp.2
      simpa using this
    apply hnotin
    obtain ⟨hdate, hmatch⟩ := rowKey_eq_iff.mp hkey
    refine List.mem_map.mpr ⟨a, List.mem_filter.mpr ⟨ha, ?_⟩, hmatch⟩
    simp [hdate, hbd]

/-- A whole generation pass preserves key uniqueness. -/
theorem noDupKeys_foldl (hash : String → Int) (sr : Nat → SchedResp) (dates : List Nat)
    (log : List Row) (hlog : NoDupKeys log)
    (hpicks : ∀ d : Nat,
      (simulate_model_picks hash (sr d) d).Pairwise (fun a b => a.matchup ≠ b.matchup)) :
    NoDupKeys (dates.foldl (fun st x => update_picks_log hash sr x st) log) := by
  induction dates generalizing log with
  | nil => exact hlog
  | cons d rest ih =>
    exact ih (update_picks_log hash sr d log) (noDupKeys_update hash sr d log hlog (hpicks d))

/-- The evaluation pass preserves key uniqueness. -/
theorem noDupKeys_map_eval (s : ScoreResp) (log : List Row) (h : NoDupKeys log) :
    NoDupKeys (log.map (evaluate_row s)) := by
  unfold NoDupKeys
  rw [List.pairwise_map]
  exact h.imp (fun hab => by rw [rowKey_evaluate_row, rowKey_evaluate_row]; exact hab)

/-- C4 counterexample: a schedule response listing the same matchup
twice for one date (the shape of a doubleheader) makes update_picks_log
append both copies — the duplicate filter checks only the rows already
in the store, not the batch being inserted — so the store ends up with
two rows sharing the natural key. -/
theorem duplicate_matchup_breaks_uniqueness :
    ¬ NoDupKeys (update_picks_log (fun _ => 0)
      (fun _ => some [⟨"Yankees", "Athletics", none, none⟩,
                      ⟨"Yankees", "Athletics", none, none⟩]) 0 []) := by
  intro h
  have hstore : update_picks_log (fun _ => 0)
      (fun _ => some [⟨"Yankees", "Athletics", none, none⟩,
                      ⟨"Yankees", "Athletics", none, none⟩]) 0 []
      = [mkPick (fun _ => 0) 0 ⟨"Yankees", "Athletics", none, none⟩,
         mkPick (fun _ => 0) 0 ⟨"Yankees", "Athletics", none, none⟩] := by decide
  rw [hstore] at h
  unfold NoDupKeys at h
  rw [List.pairwise_cons] at h
  exact h.1 _ (List.mem_singleton.mpr rfl) rfl

/-- C4 (amended): provided every schedule response lists each matchup
at most once per date and the initial store has no duplicate natural
keys, the sweep preserves the no-duplicate-keys invariant at every
step; and a generated pick whose key is already present inserts
nothing — an update whose picks are all present leaves the store
unchanged. -/
theorem key_uniqueness_amended :
    (∀ (hash : String → Int) (schedResp : Nat → SchedResp) (scoreResp : ScoreResp)
      (dates : List Nat) (log : List Row), NoDupKeys log →
      (∀ d : Nat, (simulate_model_picks hash (schedResp d) d).Pairwise
        (fun a b => a.matchup ≠ b.matchup)) →
      NoDupKeys (sweep hash schedResp scoreResp dates log))
    ∧ (∀ (hash : String → Int) (schedResp : Nat → SchedResp) (d : Nat) (log : List Row),
      (∀ p ∈ simulate_model_picks hash (schedResp d) d, hasKey log d p.matchup) →
      update_picks_log hash schedResp d log = log) := by
  constructor
  · intro hash sr scr dates log hlog hpicks
    unfold sweep
    exact noDupKeys_map_eval scr _ (noDupKeys_foldl hash sr dates log hlog hpicks)
  · exact update_picks_log_noop

/-- Witness for the amended C4 theorem: a one-game schedule sweep keeps
keys unique, and updating a date whose pick is already logged changes
nothing. -/
theorem key_uniqueness_amended_witness :
    NoDupKeys (sweep (fun _ => 0)
      (fun _ => some [⟨"Yankees", "Athletics", none, none⟩]) (fun _ _ => none) [0] [])
    ∧ update_picks_log (fun _ => 0)
        (fun _ => some [⟨"Yankees", "Athletics", none, none⟩]) 0
        [mkPick (fun _ => 0) 0 ⟨"Yankees", "Athletics", none, none⟩]
      = [mkPick (fun _ => 0) 0 ⟨"Yankees", "Athletics", none, none⟩] := by
  constructor
  · exact key_uniqueness_amended.1 (fun _ => 0)
      (fun _ => some [⟨"Yankees", "Athletics", none, none⟩]) (fun _ _ => none) [0] []
      (by simp [NoDupKeys])
      (fun d => by simp [simulate_model_picks])
  · exact key_uniqueness_amended.2 (fun _ => 0)
      (fun _ => some [⟨"Yankees", "Athletics", none, none⟩]) 0
      [mkPick (fun _ => 0) 0 ⟨"Yankees", "Athletics", none, none⟩]
      (fun p hp => by
        simp only [simulate_model_picks, List.map_cons, List.map_nil,
          List.mem_singleton] at hp
        subst hp
        exact ⟨_, List.mem_singleton.mpr rfl, rfl, rfl⟩)

/-- C7 counterexample: the tracker generator feeds team names through
Python's per-process salted string hash, so two runs over the same date
and the same matchup can disagree on the prediction: under one hash the
spread pick is Away +1.5, under another it is Home -1.5. -/
theorem generation_depends_on_hash_salt :
    ((simulate_model_picks (fun _ => 0)
        (some [⟨"Yankees", "Athletics", none, none⟩]) 0).map (fun r => r.spreadPick)
      = [SpreadPick.away15])
    ∧ ((simulate_model_picks (fun s => if s = "Yankees" then 3 else 0)
        (some [⟨"Yankees", "Athletics", none, none⟩]) 0).map (fun r => r.spreadPick)
      = [SpreadPick.home15])
    ∧ SpreadPick.away15 ≠ SpreadPick.home15 := by
  exact ⟨by decide, by decide, by decide⟩

/-- C7 (amended): once the process hash function is fixed, generation
is deterministic and local — the pick list is the per-game image of the
schedule response, and the prediction fields built for a game depend
only on the hash function and the game's team names, not on the date
swept, the position in the schedule, or the other games.  Across
processes the salted hash may change the predictions. -/
theorem generation_deterministic_given_hash :
    (∀ (hash : String → Int) (games : List GameJson) (d : Nat),
      simulate_model_picks hash (some games) d = games.map (mkPick hash d))
    ∧ (∀ (hash : String → Int) (d₁ d₂ : Nat) (g : GameJson),
      (mkPick hash d₁ g).spreadPick = (mkPick hash d₂ g).spreadPick
      ∧ (mkPick hash d₁ g).totalPick = (mkPick hash d₂ g).totalPick
      ∧ (mkPick hash d₁ g).matchup = (mkPick hash d₂ g).matchup) := by
  exact ⟨fun _ _ _ => rfl, fun _ _ _ _ => ⟨rfl, rfl, rfl⟩⟩

/-- Generated pick lists agree when the schedule responses generate the
same picks. -/
theorem update_picks_log_congr (hash : String → Int) (sr sr' : Nat → SchedResp) (d : Nat)
    (log : List Row)
    (h : simulate_model_picks hash (sr d) d = simulate_model_picks hash (sr' d) d) :
    update_picks_log hash sr d log = update_picks_log hash sr' d log := by
  simp only [update_picks_log]
  rw [h]

/-- Generation passes agree date by date when the per-date picks
agree. -/
theorem foldl_update_congr (hash : String → Int) (sr sr' : Nat → SchedResp)
    (dates : List Nat)
    (h : ∀ d ∈ dates, simulate_model_picks hash (sr d) d = simulate_model_picks hash (sr' d) d) :
    ∀ L : List Row, dates.foldl (fun st x => update_picks_log hash sr x st) L
      = dates.foldl (fun st x => update_picks_log hash sr' x st) L := by
  induction dates with
  | nil => intro L; rfl
  | cons d rest ih =>
    intro L
    rw [List.foldl_cons, List.foldl_cons,
      update_picks_log_congr hash sr sr' d L (h d (List.mem_cons_self d rest))]
    exact ih (fun x hx => h x (List.mem_cons_of_mem d hx)) _

/-- C9: fetch failures are isolated.  A failed schedule fetch for one
date behaves exactly like an empty schedule for that date — the sweep
over the whole range produces the same store as it would with an empty
response there, so every other date is generated and evaluated as
usual.  A failed score fetch for one (date, home team) leaves the
evaluation of every other row untouched. -/
theorem fetch_failure_isolation :
    (∀ (hash : String → Int) (schedResp schedResp' : Nat → SchedResp)
      (scoreResp : ScoreResp) (dates : List Nat) (log : List Row) (d₀ : Nat),
      schedResp d₀ = none → schedResp' d₀ = some [] →
      (∀ d : Nat, d ≠ d₀ → schedResp' d = schedResp d) →
      sweep hash schedResp scoreResp dates log = sweep hash schedResp' scoreResp dates log)
    ∧ (∀ (scoreResp scoreResp' : ScoreResp) (d₀ : Nat) (team₀ : String),
      (∀ (d : Nat) (t : String), ¬ (d = d₀ ∧ t = team₀) → scoreResp' d t = scoreResp d t) →
      ∀ row : Row, ¬ (row.date = d₀ ∧ row.matchup.home = team₀) →
      evaluate_row scoreResp' row = evaluate_row scoreResp row) := by
  constructor
  · intro hash sr sr' scr dates log d₀ h0 h0' hag
    unfold sweep
    rw [foldl_update_congr hash sr sr' dates ?_ log]
    intro d hd
    by_cases hdd : d = d₀
    · subst hdd
      rw [h0, h0']
      rfl
    · rw [hag d hdd]
  · intro scr scr' d₀ t₀ hag row hrow
    unfold evaluate_row
    rw [hag row.date row.matchup.home hrow]

/-- Witness for C9: a two-date sweep in which the schedule fetch for
date 5 fails is identical to the same sweep with an empty schedule for
date 5, and a row for another date evaluates identically when only the
(5, Yankees) score response differs. -/
theorem fetch_failure_isolation_witness :
    sweep (fun _ => 0) (fun d => if d = 5 then none else some [])
        (fun _ _ => none) [0, 5] []
      = sweep (fun _ => 0) (fun _ => some []) (fun _ _ => none) [0, 5] []
    ∧ evaluate_row (fun d t => if d = 5 ∧ t = "Yankees" then none else some [])
        ⟨0, ⟨"Athletics", "Mets"⟩, SpreadPick.home15, TotalPick.over ⟨9, 0⟩,
         Cell.na, none, Cell.na, none⟩
      = evaluate_row (fun _ _ => some [])
        ⟨0, ⟨"Athletics", "Mets"⟩, SpreadPick.home15, TotalPick.over ⟨9, 0⟩,
         Cell.na, none, Cell.na, none⟩ := by
  constructor
  · exact fetch_failure_isolation.1 (fun _ => 0) (fun d => if d = 5 then none else some [])
      (fun _ => some []) (fun _ _ => none) [0, 5] [] 5
      (by simp) rfl (fun d hd => by simp [hd])
  · exact fetch_failure_isolation.2
      (fun _ _ => some []) (fun d t => if d = 5 ∧ t = "Yankees" then none else some [])
      5 "Yankees"
      (fun d t hdt => by simp [hdt])
      ⟨0, ⟨"Athletics", "Mets"⟩, SpreadPick.home15, TotalPick.over ⟨9, 0⟩,
       Cell.na, none, Cell.na, none⟩
      (by decide)
